import Mathlib

/-!
Verification development for the twimc repository (two Python utilities:
scripts/chat_metrics.py and data/cfpb_importer.py), as a shallow embedding
in Lean 4.

Conventions of the embedding:
 - Python strings are Lean `String`s (a Python character = a Lean `Char`,
   `len` = `String.length`, both count code points).
 - `datetime` instants are embedded as their microsecond value on the
   proleptic Gregorian timeline (`Int`); `timedelta` arithmetic and
   comparisons on naive datetimes are exactly arithmetic on that value.
 - Python floats are idealized as exact rationals (`Rat`); `round(x, n)`
   is embedded as exact round-half-to-even on rationals.
 - Python regular-expression searches are embedded by compiling each literal
   pattern of the source into an explicit atom list (word boundaries, literal
   characters, character classes, an optional character, and the starred
   pieces appearing in the source) and running an executable backtracking
   matcher.  `\w`, `\s`, `str.lower` and `str.strip` are taken at their
   ASCII meaning.
 - Fallible code returns `Option`; a caught exception branch is a
   constructor of an outcome type.
-/

/-! ## Characters and Python string helpers -/

/-- ASCII reading of a regex word character `\w` (`[A-Za-z0-9_]`). -/
def isWordChar (c : Char) : Bool :=
  c.isAlpha || c.isDigit || c == '_'

/-- ASCII reading of Python whitespace (`\s`, `str.strip`, `str.isspace`):
space, tab, newline, carriage return, vertical tab, form feed. -/
def isPySpace (c : Char) : Bool :=
  c == ' ' || c == '\t' || c == '\n' || c == '\r' || c == '\x0b' || c == '\x0c'

/-- Embedding of Python `str.strip()` (ASCII whitespace). -/
def pyStrip (s : String) : String :=
  (((s.data.dropWhile isPySpace).reverse.dropWhile isPySpace).reverse).asString

/-- Embedding of Python `str.lower()` (ASCII letters). -/
def strToLower (s : String) : String :=
  (s.data.map Char.toLower).asString

/-! ## A small executable regex matcher

The source classifies text with `re.search(p, text, flags=re.I)` over a fixed
table of literal patterns.  Every pattern of the source is built from word
boundaries, literal characters, a two-character class, an optional character
and the two starred pieces that occur in the source.  Each pattern is
translated, character for character, into a list of alternatives, an
alternative being a list of the following atoms. -/

inductive Atom where
  /-- a literal character (patterns are stored lowercased; the subject text
  is lowercased before matching, mirroring `blob.lower()` plus `re.I`) -/
  | ch (c : Char)
  /-- a character class such as `[sz]` -/
  | cls (cs : List Char)
  /-- an optional character, such as the apostrophe in the source's
  pattern piece matching "doesn't" -/
  | optCh (c : Char)
  /-- the starred whitespace piece of the source, zero or more `\s` -/
  | manyWs
  /-- the starred dot of the source, zero or more of any character other
  than a newline -/
  | manyDot
  /-- a word boundary -/
  | wb
deriving Repr, DecidableEq

/-- Word-character test through an optional character (`none` stands for the
edge of the subject string). -/
def isWordO : Option Char → Bool
  | some c => isWordChar c
  | none => false

/-- First character of the rest of the subject, if any. -/
def headO : List Char → Option Char
  | [] => none
  | c :: _ => some c

/-- All ways to consume a (possibly empty) run of characters satisfying `p`,
each with the character just before the remaining suffix. -/
def afterRuns (p : Char → Bool) : Option Char → List Char → List (Option Char × List Char)
  | prev, [] => [(prev, [])]
  | prev, d :: rest =>
    (prev, d :: rest) :: (if p d then afterRuns p (some d) rest else [])

/-- Match a list of atoms at the start of `s`; `prev` is the character just
before `s` in the full subject (`none` at the start of the subject).  The end
of the atom list matches with any remainder, which gives `re.search`
semantics once tried at every start position. -/
def matchAtoms : List Atom → Option Char → List Char → Bool
  | [], _, _ => true
  | Atom.ch c :: as, _, s =>
    match s with
    | d :: rest => d == c && matchAtoms as (some d) rest
    | [] => false
  | Atom.cls cs :: as, _, s =>
    match s with
    | d :: rest => cs.contains d && matchAtoms as (some d) rest
    | [] => false
  | Atom.optCh c :: as, prev, s =>
    (match s with
     | d :: rest => d == c && matchAtoms as (some d) rest
     | [] => false)
    || matchAtoms as prev s
  | Atom.manyWs :: as, prev, s =>
    (afterRuns isPySpace prev s).any fun pr => matchAtoms as pr.1 pr.2
  | Atom.manyDot :: as, prev, s =>
    (afterRuns (fun c => !(c == '\n')) prev s).any fun pr => matchAtoms as pr.1 pr.2
  | Atom.wb :: as, prev, s =>
    (isWordO prev != isWordO (headO s)) && matchAtoms as prev s

/-- Try each alternative at every start position of the subject. -/
def searchFrom (alts : List (List Atom)) : Option Char → List Char → Bool
  | prev, [] => alts.any fun a => matchAtoms a prev []
  | prev, d :: rest =>
    (alts.any fun a => matchAtoms a prev (d :: rest)) || searchFrom alts (some d) rest

/-- Embedding of `re.search(pattern, s) is not None` for a pattern given as
its list of alternatives. -/
def reSearch (alts : List (List Atom)) (s : List Char) : Bool :=
  searchFrom alts none s

/-- Literal characters of a string as atoms. -/
def chs (s : String) : List Atom :=
  s.data.map Atom.ch

/-- A whole-word alternative: word boundary, the word's characters, word
boundary — the translation of one plain alternative inside a source pattern
of the shape `\b(...)\b`. -/
def wordAlt (s : String) : List Atom :=
  [Atom.wb] ++ chs s ++ [Atom.wb]

/-! ## The classifier's pattern tables (scripts/chat_metrics.py)

Each entry below is one regex string of the source's `DEBUG_PATTERNS`,
`FEATURE_PATTERNS` and `TEST_DOCS_CI_PATTERNS` (the tables appear twice in
the file, identically), compiled alternative by alternative.  The `\b(...)\b`
wrapper of each source pattern distributes over the alternation. -/

/-- Source pattern `\b(error|exception|traceback|stack\s*trace|crash|panic|bug|fix|regression)\b`. -/
def debugPat1 : List (List Atom) :=
  [wordAlt "error", wordAlt "exception", wordAlt "traceback",
   [Atom.wb] ++ chs "stack" ++ [Atom.manyWs] ++ chs "trace" ++ [Atom.wb],
   wordAlt "crash", wordAlt "panic", wordAlt "bug", wordAlt "fix", wordAlt "regression"]

/-- Source pattern `\b(failed|failing|doesn'?t work|broken|hangs|timeout|segfault)\b`. -/
def debugPat2 : List (List Atom) :=
  [wordAlt "failed", wordAlt "failing",
   [Atom.wb] ++ chs "doesn" ++ [Atom.optCh (Char.ofNat 39)] ++ chs "t work" ++ [Atom.wb],
   wordAlt "broken", wordAlt "hangs", wordAlt "timeout", wordAlt "segfault"]

/-- Source pattern `\b(404|401|500|403|502|503)\b`. -/
def debugPat3 : List (List Atom) :=
  [wordAlt "404", wordAlt "401", wordAlt "500", wordAlt "403", wordAlt "502", wordAlt "503"]

/-- Source pattern `\b(null reference|undefined|TypeError|NameError|KeyError|IndexError|ReferenceError)\b`
(lowercased; the subject is lowercased and the search is case-insensitive). -/
def debugPat4 : List (List Atom) :=
  [wordAlt "null reference", wordAlt "undefined", wordAlt "typeerror", wordAlt "nameerror",
   wordAlt "keyerror", wordAlt "indexerror", wordAlt "referenceerror"]

/-- Source pattern `\b(log|stderr|stdout|console\.log|print\(.*\)|logger)\b`. -/
def debugPat5 : List (List Atom) :=
  [wordAlt "log", wordAlt "stderr", wordAlt "stdout", wordAlt "console.log",
   [Atom.wb] ++ chs "print(" ++ [Atom.manyDot] ++ chs ")" ++ [Atom.wb],
   wordAlt "logger"]

/-- Source pattern `\b(build failed|compile error|lint error|tsc error|pytest failed|unit test failed)\b`. -/
def debugPat6 : List (List Atom) :=
  [wordAlt "build failed", wordAlt "compile error", wordAlt "lint error",
   wordAlt "tsc error", wordAlt "pytest failed", wordAlt "unit test failed"]

/-- Source pattern `\b(deploy fail|rollback|hotfix|incident)\b`. -/
def debugPat7 : List (List Atom) :=
  [wordAlt "deploy fail", wordAlt "rollback", wordAlt "hotfix", wordAlt "incident"]

/-- The source's `DEBUG_PATTERNS` table. -/
def DEBUG_PATTERNS : List (List (List Atom)) :=
  [debugPat1, debugPat2, debugPat3, debugPat4, debugPat5, debugPat6, debugPat7]

/-- Source pattern `\b(implement|add|create|build|ship|scaffold|wire|integrate|hook up)\b`. -/
def featurePat1 : List (List Atom) :=
  [wordAlt "implement", wordAlt "add", wordAlt "create", wordAlt "build", wordAlt "ship",
   wordAlt "scaffold", wordAlt "wire", wordAlt "integrate", wordAlt "hook up"]

/-- Source pattern `\b(feature|endpoint|api|component|screen|ui|route|schema|migration|model)\b`. -/
def featurePat2 : List (List Atom) :=
  [wordAlt "feature", wordAlt "endpoint", wordAlt "api", wordAlt "component", wordAlt "screen",
   wordAlt "ui", wordAlt "route", wordAlt "schema", wordAlt "migration", wordAlt "model"]

/-- Source pattern `\b(refactor|optimi[sz]e|rewrite)\b`. -/
def featurePat3 : List (List Atom) :=
  [wordAlt "refactor",
   [Atom.wb] ++ chs "optimi" ++ [Atom.cls ['s', 'z']] ++ chs "e" ++ [Atom.wb],
   wordAlt "rewrite"]

/-- The source's `FEATURE_PATTERNS` table. -/
def FEATURE_PATTERNS : List (List (List Atom)) :=
  [featurePat1, featurePat2, featurePat3]

/-- Source pattern `\b(test|unit test|e2e|integration test|playwright|pytest|jest)\b`. -/
def testDocsPat1 : List (List Atom) :=
  [wordAlt "test", wordAlt "unit test", wordAlt "e2e", wordAlt "integration test",
   wordAlt "playwright", wordAlt "pytest", wordAlt "jest"]

/-- Source pattern `\b(doc[s]?|readme|changelog|prd|adr|spec)\b`. -/
def testDocsPat2 : List (List Atom) :=
  [[Atom.wb] ++ chs "doc" ++ [Atom.optCh 's'] ++ [Atom.wb],
   wordAlt "readme", wordAlt "changelog", wordAlt "prd", wordAlt "adr", wordAlt "spec"]

/-- Source pattern `\b(ci|pipeline|lint|typecheck|tsc|ruff|black|pre-commit|github actions|prisma migrate|alembic)\b`. -/
def testDocsPat3 : List (List Atom) :=
  [wordAlt "ci", wordAlt "pipeline", wordAlt "lint", wordAlt "typecheck", wordAlt "tsc",
   wordAlt "ruff", wordAlt "black", wordAlt "pre-commit", wordAlt "github actions",
   wordAlt "prisma migrate", wordAlt "alembic"]

/-- The source's `TEST_DOCS_CI_PATTERNS` table. -/
def TEST_DOCS_CI_PATTERNS : List (List (List Atom)) :=
  [testDocsPat1, testDocsPat2, testDocsPat3]

/-- The source's explicit mode-marker pattern `\bMODE:\s*TEST\b` (lowercased). -/
def modeTestPat : List (List Atom) :=
  [[Atom.wb] ++ chs "mode:" ++ [Atom.manyWs] ++ chs "test" ++ [Atom.wb]]

/-- The source's explicit mode-marker pattern `\bMODE:\s*DOCS\b` (lowercased). -/
def modeDocsPat : List (List Atom) :=
  [[Atom.wb] ++ chs "mode:" ++ [Atom.manyWs] ++ chs "docs" ++ [Atom.wb]]

/-- The source's explicit mode-marker pattern `\bMODE:\s*ASK\b` (lowercased). -/
def modeAskPat : List (List Atom) :=
  [[Atom.wb] ++ chs "mode:" ++ [Atom.manyWs] ++ chs "ask" ++ [Atom.wb]]

/-- The source's explicit mode-marker pattern `\bMODE:\s*PLAN\b` (lowercased). -/
def modePlanPat : List (List Atom) :=
  [[Atom.wb] ++ chs "mode:" ++ [Atom.manyWs] ++ chs "plan" ++ [Atom.wb]]

/-- The source's explicit mode-marker pattern `\bMODE:\s*BUILD\b` (lowercased). -/
def modeBuildPat : List (List Atom) :=
  [[Atom.wb] ++ chs "mode:" ++ [Atom.manyWs] ++ chs "build" ++ [Atom.wb]]

/-- Embedding of the source's `any_match(text, patterns)`. -/
def any_match (text : List Char) (patterns : List (List (List Atom))) : Bool :=
  patterns.any fun p => reSearch p text

/-- The four labels of `classify_turn`. -/
inductive Category where
  | DEBUG_LOG
  | FEATURE_DEV
  | TEST_DOCS_CI
  | OTHER
deriving Repr, DecidableEq, Inhabited

/-- The lowercased concatenation the classifier works on:
`f"{user_text}\n{assistant_text}".lower()`. -/
def blobOf (user_text assistant_text : String) : List Char :=
  ((user_text ++ "\n" ++ assistant_text).data).map Char.toLower

/-- Embedding of the source's `classify_turn(user_text, assistant_text)`. -/
def classify_turn (user_text assistant_text : String) : Category :=
  if reSearch modeTestPat (blobOf user_text assistant_text) then Category.TEST_DOCS_CI
  else if reSearch modeDocsPat (blobOf user_text assistant_text) then Category.TEST_DOCS_CI
  else if reSearch modeAskPat (blobOf user_text assistant_text) then Category.OTHER
  else if reSearch modePlanPat (blobOf user_text assistant_text) then Category.OTHER
  else if reSearch modeBuildPat (blobOf user_text assistant_text) then Category.FEATURE_DEV
  else if any_match (blobOf user_text assistant_text) DEBUG_PATTERNS then Category.DEBUG_LOG
  else if any_match (blobOf user_text assistant_text) TEST_DOCS_CI_PATTERNS then Category.TEST_DOCS_CI
  else if any_match (blobOf user_text assistant_text) FEATURE_PATTERNS then Category.FEATURE_DEV
  else Category.OTHER

/-- Embedding of the source's `token_estimate(text)`:
`math.ceil(len(text) / 4) if text else 0`. -/
def token_estimate (text : String) : Nat :=
  if text.isEmpty then 0 else (text.length + 3) / 4

/-! ## Rounding (Python `round`) and time units -/

/-- Python `round` ties-to-even on an exact rational. -/
def roundHalfEven (q : Rat) : Int :=
  let f : Int := Int.floor q
  let r : Rat := q - (f : Rat)
  if r < 1/2 then f
  else if (1 : Rat)/2 < r then f + 1
  else if f % 2 = 0 then f else f + 1

/-- Python `round(q, ndigits)`, floats idealized as exact rationals. -/
def pyRound (q : Rat) (ndigits : Nat) : Rat :=
  let m : Int := (10 : Int) ^ ndigits
  (roundHalfEven (q * (m : Rat)) : Rat) / (m : Rat)

/-- Microseconds per minute: `timedelta(minutes=1)` at `datetime`
resolution. -/
def usPerMinute : Int := 60000000

/-! ## Messages and turn grouping (scripts/chat_metrics.py) -/

/-- One loaded chat message: the dict `{"timestamp": dt, "role": role,
"content": content}` built by `read_chat`, the datetime embedded as its
microsecond value. -/
structure Msg where
  timestamp : Int
  role : String
  content : String
deriving Repr, DecidableEq, Inhabited

/-- Embedding of `user_indices = [i for i, m in enumerate(msgs) if
m["role"] == "user"]`. -/
def userIndices (msgs : List Msg) : List Nat :=
  (msgs.enum.filter fun p => p.2.role == "user").map Prod.fst

/-- The source's forward scan from the message after the initiating one:
first assistant message, stopping at the next user message. -/
def findResp : List Msg → Option Msg
  | [] => none
  | m :: rest =>
    if m.role == "assistant" then some m
    else if m.role == "user" then none
    else findResp rest

/-- One turn record as `group_turns` builds it.  `durUs` is the timedelta
`dur` of the source in microseconds; `duration_minutes` is the stored
`round(dur.total_seconds() / 60, 2)`. -/
structure Turn where
  user_time : Int
  durUs : Int
  duration_minutes : Rat
  category : Category
  user_chars : Nat
  assistant_chars : Nat
  tokens_est : Nat
  user_excerpt : String
deriving Repr, DecidableEq, Inhabited

/-- Embedding of the source's `group_turns(msgs, cap_minutes)`. -/
def group_turns (msgs : List Msg) (cap_minutes : Int) : List Turn :=
  (userIndices msgs).enum.map fun p =>
    let idx := p.1
    let ui := p.2
    let u := msgs.getD ui default
    let next_u : Int :=
      if idx + 1 < (userIndices msgs).length then
        (msgs.getD ((userIndices msgs).getD (idx + 1) 0) default).timestamp
      else
        u.timestamp + (cap_minutes + 5) * usPerMinute
    let ai := findResp (msgs.drop (ui + 1))
    let dur : Int := min (next_u - u.timestamp) (cap_minutes * usPerMinute)
    let a_text := match ai with | some a => a.content | none => ""
    { user_time := u.timestamp
      durUs := dur
      duration_minutes := pyRound ((dur : Rat) / 60000000) 2
      category := classify_turn u.content a_text
      user_chars := u.content.length
      assistant_chars := a_text.length
      tokens_est := token_estimate u.content + token_estimate a_text
      user_excerpt := u.content.take 140 ++ (if u.content.length > 140 then "…" else "") }

/-! Specification-side description of turn durations, for claim C2: the
initiating timestamps, the "next initiating timestamp" and the credited
duration exactly as §4.3 of the spec words them. -/

/-- Timestamps of the initiating (user) messages, in order. -/
def initTimes (msgs : List Msg) : List Int :=
  (msgs.filter fun m => m.role == "user").map Msg.timestamp

/-- The "next initiating timestamp" of the spec: the following initiating
message's timestamp when one exists, else the current one plus
(cap + 5) minutes. -/
def nextInitTime (times : List Int) (i : Nat) (cap : Int) : Int :=
  match times[i + 1]? with
  | some t => t
  | none => times.getD i 0 + (cap + 5) * usPerMinute

/-- The spec's credited duration: `min(next initiating timestamp − current
timestamp, cap)`. -/
def creditedDur (times : List Int) (i : Nat) (cap : Int) : Int :=
  min (nextInitTime times i cap - times.getD i 0) (cap * usPerMinute)

/-! ## Aggregation (`summarize`) -/

/-- One category's accumulated minutes and tokens (`{"mins": .., "tokens": ..}`). -/
structure CatTotals where
  mins : Rat
  tokens : Nat
deriving Repr, DecidableEq, Inhabited

/-- The `totals` dict of `summarize`, one entry per category. -/
structure TotalsAcc where
  dbg : CatTotals
  feat : CatTotals
  tdc : CatTotals
  other : CatTotals
deriving Repr, DecidableEq, Inhabited

/-- One iteration of the accumulation loop of `summarize`. -/
def addTurn (acc : TotalsAcc) (t : Turn) : TotalsAcc :=
  match t.category with
  | Category.DEBUG_LOG =>
    { acc with dbg := ⟨acc.dbg.mins + t.duration_minutes, acc.dbg.tokens + t.tokens_est⟩ }
  | Category.FEATURE_DEV =>
    { acc with feat := ⟨acc.feat.mins + t.duration_minutes, acc.feat.tokens + t.tokens_est⟩ }
  | Category.TEST_DOCS_CI =>
    { acc with tdc := ⟨acc.tdc.mins + t.duration_minutes, acc.tdc.tokens + t.tokens_est⟩ }
  | Category.OTHER =>
    { acc with other := ⟨acc.other.mins + t.duration_minutes, acc.other.tokens + t.tokens_est⟩ }

/-- The zero-initialized `totals` dict. -/
def totalsInit : TotalsAcc := ⟨⟨0, 0⟩, ⟨0, 0⟩, ⟨0, 0⟩, ⟨0, 0⟩⟩

/-- The accumulation loop of `summarize` over the turn list. -/
def totalsOf (turns : List Turn) : TotalsAcc :=
  turns.foldl addTurn totalsInit

/-- One category's entry of the `share` dict. -/
structure ShareEntry where
  mins : Rat
  mins_share : Rat
  tokens : Nat
  tokens_share : Rat
deriving Repr, DecidableEq, Inhabited

/-- The summary document: the `share` dict plus the grand totals. -/
structure Summary where
  dbg : ShareEntry
  feat : ShareEntry
  tdc : ShareEntry
  other : ShareEntry
  grand_mins : Rat
  grand_tokens : Nat
deriving Repr, DecidableEq, Inhabited

/-- One entry of the `share` dict of `summarize`: the zero grand total is
guarded before dividing, exactly as in the source. -/
def shareOf (v : CatTotals) (grand_mins : Rat) (grand_tokens : Nat) : ShareEntry :=
  { mins := pyRound v.mins 2
    mins_share := pyRound (if grand_mins = 0 then 0 else v.mins / grand_mins * 100) 1
    tokens := v.tokens
    tokens_share :=
      pyRound (if grand_tokens = 0 then 0 else (v.tokens : Rat) / (grand_tokens : Rat) * 100) 1 }

/-- Embedding of the source's `summarize(turns)`. -/
def summarize (turns : List Turn) : Summary :=
  let totals := totalsOf turns
  let grand_mins := totals.dbg.mins + totals.feat.mins + totals.tdc.mins + totals.other.mins
  let grand_tokens := totals.dbg.tokens + totals.feat.tokens + totals.tdc.tokens + totals.other.tokens
  { dbg := shareOf totals.dbg grand_mins grand_tokens
    feat := shareOf totals.feat grand_mins grand_tokens
    tdc := shareOf totals.tdc grand_mins grand_tokens
    other := shareOf totals.other grand_mins grand_tokens
    grand_mins := pyRound grand_mins 2
    grand_tokens := grand_tokens }

/-! Specification-side per-category and grand sums, for claim C8. -/

/-- Sum of credited minutes over the turns of one category. -/
def catMins (c : Category) : List Turn → Rat
  | [] => 0
  | t :: ts => (if t.category = c then t.duration_minutes else 0) + catMins c ts

/-- Sum of estimated tokens over the turns of one category. -/
def catTokens (c : Category) : List Turn → Nat
  | [] => 0
  | t :: ts => (if t.category = c then t.tokens_est else 0) + catTokens c ts

/-- Sum of credited minutes over all turns. -/
def grandMinsOf : List Turn → Rat
  | [] => 0
  | t :: ts => t.duration_minutes + grandMinsOf ts

/-- Sum of estimated tokens over all turns. -/
def grandTokensOf : List Turn → Nat
  | [] => 0
  | t :: ts => t.tokens_est + grandTokensOf ts

/-! ## Timestamp parsing (`parse_dt`, scripts/chat_metrics.py)

The source tries six `datetime.strptime` format strings in order and falls
back to `datetime.fromisoformat(s.replace("Z", ""))`.  The formats are
embedded as token lists; the numeric directives accept one or two digits
(four for `%Y`, exactly two for `%y`, one to six for `%f`) with the value
ranges of CPython's `_strptime` regexes, a whitespace in the format matches a
run of whitespace, a literal matches case-insensitively, and the whole string
must be consumed.  The resulting calendar date is validated as `datetime`
does.  The ISO fallback is modelled on CPython 3.11 `fromisoformat` for the
common naive forms `YYYY-MM-DD[<sep>HH[:MM[:SS[.f{1,6}]]]]` (no timezone
offsets). -/

/-- A parsed naive `datetime` value. -/
structure PyDateTime where
  year : Nat
  month : Nat
  day : Nat
  hour : Nat
  minute : Nat
  second : Nat
  usec : Nat
deriving Repr, DecidableEq, Inhabited

/-- One token of a `strptime` format string. -/
inductive FmtTok where
  /-- a literal character of the format (matched case-insensitively) -/
  | lit (c : Char)
  /-- a whitespace in the format: matches one or more whitespace characters -/
  | ws
  /-- `%Y`: exactly four digits -/
  | Y4
  /-- `%y`: exactly two digits, 69..99 mapping to 1969..1999, 0..68 to 2000..2068 -/
  | y2
  /-- `%m`: one or two digits, month 1..12 -/
  | m2
  /-- `%d`: one or two digits, day 1..31 -/
  | d2
  /-- `%H`: one or two digits, hour 0..23 -/
  | H2
  /-- `%M`: one or two digits, minute 0..59 -/
  | M2
  /-- `%S`: one or two digits, second 0..59 -/
  | S2
  /-- `%f`: one to six digits of microseconds, right-padded to six -/
  | f6
deriving Repr, DecidableEq

/-- Value of a digit list, most significant first. -/
def digitsVal (cs : List Char) : Nat :=
  cs.foldl (fun a c => a * 10 + (c.toNat - 48)) 0

/-- Parse a one-or-two-digit numeric field: a two-digit form whose value lies
in `lo2..hi2`, else a one-digit form whose value lies in `lo1..hi1` (the
alternation of CPython's directive regexes; in the six formats of the source
every numeric field is followed by a non-digit or the end, so no further
backtracking arises). -/
def num12 (lo2 hi2 lo1 hi1 : Nat) : List Char → Option (Nat × List Char)
  | a :: b :: rest =>
    if a.isDigit && b.isDigit then
      let v := digitsVal [a, b]
      if lo2 ≤ v && v ≤ hi2 then some (v, rest)
      else
        let w := digitsVal [a]
        if lo1 ≤ w && w ≤ hi1 then some (w, b :: rest) else none
    else if a.isDigit then
      let w := digitsVal [a]
      if lo1 ≤ w && w ≤ hi1 then some (w, b :: rest) else none
    else none
  | [a] =>
    if a.isDigit then
      let w := digitsVal [a]
      if lo1 ≤ w && w ≤ hi1 then some (w, []) else none
    else none
  | [] => none

/-- Take up to `n` leading digits. -/
def takeDigits : Nat → List Char → List Char × List Char
  | 0, cs => ([], cs)
  | _ + 1, [] => ([], [])
  | n + 1, c :: cs =>
    if c.isDigit then
      let (ds, rest) := takeDigits n cs
      (c :: ds, rest)
    else ([], c :: cs)

/-- Fields collected while running a format; `strptime` defaults apply to
fields the format does not set. -/
structure RawParts where
  y : Nat
  mo : Nat
  d : Nat
  h : Nat
  mi : Nat
  s : Nat
  us : Nat
deriving Repr, DecidableEq

/-- The `strptime` defaults: 1900-01-01 00:00:00.000000. -/
def defaultParts : RawParts := ⟨1900, 1, 1, 0, 0, 0, 0⟩

/-- Run a format over the subject; the whole subject must be consumed. -/
def runFmt : List FmtTok → List Char → RawParts → Option RawParts
  | [], [], acc => some acc
  | [], _ :: _, _ => none
  | FmtTok.lit c :: fs, xs, acc =>
    match xs with
    | x :: rest => if x.toLower == c.toLower then runFmt fs rest acc else none
    | [] => none
  | FmtTok.ws :: fs, xs, acc =>
    match xs with
    | x :: rest => if isPySpace x then runFmt fs (rest.dropWhile isPySpace) acc else none
    | [] => none
  | FmtTok.Y4 :: fs, xs, acc =>
    match xs with
    | a :: b :: c :: e :: rest =>
      if a.isDigit && b.isDigit && c.isDigit && e.isDigit then
        runFmt fs rest { acc with y := digitsVal [a, b, c, e] }
      else none
    | _ => none
  | FmtTok.y2 :: fs, xs, acc =>
    match xs with
    | a :: b :: rest =>
      if a.isDigit && b.isDigit then
        let v := digitsVal [a, b]
        runFmt fs rest { acc with y := if v ≤ 68 then 2000 + v else 1900 + v }
      else none
    | _ => none
  | FmtTok.m2 :: fs, xs, acc =>
    match num12 1 12 1 9 xs with
    | some (v, rest) => runFmt fs rest { acc with mo := v }
    | none => none
  | FmtTok.d2 :: fs, xs, acc =>
    match num12 1 31 1 9 xs with
    | some (v, rest) => runFmt fs rest { acc with d := v }
    | none => none
  | FmtTok.H2 :: fs, xs, acc =>
    match num12 0 23 0 9 xs with
    | some (v, rest) => runFmt fs rest { acc with h := v }
    | none => none
  | FmtTok.M2 :: fs, xs, acc =>
    match num12 0 59 0 9 xs with
    | some (v, rest) => runFmt fs rest { acc with mi := v }
    | none => none
  | FmtTok.S2 :: fs, xs, acc =>
    match num12 0 59 0 9 xs with
    | some (v, rest) => runFmt fs rest { acc with s := v }
    | none => none
  | FmtTok.f6 :: fs, xs, acc =>
    match takeDigits 6 xs with
    | ([], _) => none
    | (ds, rest) => runFmt fs rest { acc with us := digitsVal ds * 10 ^ (6 - ds.length) }

/-- Gregorian leap year. -/
def isLeapYear (y : Nat) : Bool :=
  y % 4 == 0 && (y % 100 != 0 || y % 400 == 0)

/-- Length of a month. -/
def daysInMonth (y mo : Nat) : Nat :=
  if mo == 2 then (if isLeapYear y then 29 else 28)
  else if mo == 4 || mo == 6 || mo == 9 || mo == 11 then 30
  else 31

/-- The validation `datetime(...)` performs when `strptime` (or
`fromisoformat`) builds its result. -/
def validParts (p : RawParts) : Option PyDateTime :=
  if 1 ≤ p.y && p.y ≤ 9999 && 1 ≤ p.mo && p.mo ≤ 12 && 1 ≤ p.d && p.d ≤ daysInMonth p.y p.mo
      && p.h ≤ 23 && p.mi ≤ 59 && p.s ≤ 59 && p.us ≤ 999999 then
    some ⟨p.y, p.mo, p.d, p.h, p.mi, p.s, p.us⟩
  else none

/-- The source's `DT_FORMATS` list, token for token:
`%Y-%m-%dT%H:%M:%S.%fZ`, `%Y-%m-%dT%H:%M:%SZ`, `%Y-%m-%d %H:%M:%S`,
`%Y-%m-%d %H:%M`, `%m/%d/%Y %H:%M`, `%m/%d/%y %H:%M`. -/
def DT_FORMATS : List (List FmtTok) :=
  [[FmtTok.Y4, FmtTok.lit '-', FmtTok.m2, FmtTok.lit '-', FmtTok.d2, FmtTok.lit 'T',
    FmtTok.H2, FmtTok.lit ':', FmtTok.M2, FmtTok.lit ':', FmtTok.S2, FmtTok.lit '.',
    FmtTok.f6, FmtTok.lit 'Z'],
   [FmtTok.Y4, FmtTok.lit '-', FmtTok.m2, FmtTok.lit '-', FmtTok.d2, FmtTok.lit 'T',
    FmtTok.H2, FmtTok.lit ':', FmtTok.M2, FmtTok.lit ':', FmtTok.S2, FmtTok.lit 'Z'],
   [FmtTok.Y4, FmtTok.lit '-', FmtTok.m2, FmtTok.lit '-', FmtTok.d2, FmtTok.ws,
    FmtTok.H2, FmtTok.lit ':', FmtTok.M2, FmtTok.lit ':', FmtTok.S2],
   [FmtTok.Y4, FmtTok.lit '-', FmtTok.m2, FmtTok.lit '-', FmtTok.d2, FmtTok.ws,
    FmtTok.H2, FmtTok.lit ':', FmtTok.M2],
   [FmtTok.m2, FmtTok.lit '/', FmtTok.d2, FmtTok.lit '/', FmtTok.Y4, FmtTok.ws,
    FmtTok.H2, FmtTok.lit ':', FmtTok.M2],
   [FmtTok.m2, FmtTok.lit '/', FmtTok.d2, FmtTok.lit '/', FmtTok.y2, FmtTok.ws,
    FmtTok.H2, FmtTok.lit ':', FmtTok.M2]]

/-- Try the formats in order, as the source's loop does. -/
def tryFormats : List (List FmtTok) → List Char → Option PyDateTime
  | [], _ => none
  | f :: fs, cs =>
    match runFmt f cs defaultParts with
    | some parts =>
      match validParts parts with
      | some dt => some dt
      | none => tryFormats fs cs
    | none => tryFormats fs cs

/-- Exactly `n` leading digits, or nothing. -/
def exactDigits (n : Nat) (cs : List Char) : Option (Nat × List Char) :=
  let (ds, rest) := takeDigits n cs
  if ds.length == n then some (digitsVal ds, rest) else none

/-- The optional time tail of an ISO string: `HH[:MM[:SS[.f{1,6}]]]`. -/
def isoTime (cs : List Char) : Option (Nat × Nat × Nat × Nat) :=
  match exactDigits 2 cs with
  | none => none
  | some (h, rest) =>
    match rest with
    | [] => some (h, 0, 0, 0)
    | ':' :: rest2 =>
      match exactDigits 2 rest2 with
      | none => none
      | some (mi, rest3) =>
        match rest3 with
        | [] => some (h, mi, 0, 0)
        | ':' :: rest4 =>
          match exactDigits 2 rest4 with
          | none => none
          | some (s, rest5) =>
            match rest5 with
            | [] => some (h, mi, s, 0)
            | '.' :: rest6 =>
              match takeDigits 6 rest6 with
              | ([], _) => none
              | (ds, []) => some (h, mi, s, digitsVal ds * 10 ^ (6 - ds.length))
              | (_, _ :: _) => none
            | _ => none
        | _ => none
    | _ => none

/-- CPython 3.11 `fromisoformat`, restricted to the common naive forms
`YYYY-MM-DD` optionally followed by one separator character and a time; the
whole string must be consumed. -/
def fromIso (cs : List Char) : Option PyDateTime :=
  match cs with
  | y1 :: y2 :: y3 :: y4 :: '-' :: m1 :: m2 :: '-' :: d1 :: d2 :: rest =>
    if y1.isDigit && y2.isDigit && y3.isDigit && y4.isDigit && m1.isDigit && m2.isDigit
        && d1.isDigit && d2.isDigit then
      let y := digitsVal [y1, y2, y3, y4]
      let mo := digitsVal [m1, m2]
      let d := digitsVal [d1, d2]
      match rest with
      | [] => validParts ⟨y, mo, d, 0, 0, 0, 0⟩
      | _ :: timePart =>
        match isoTime timePart with
        | some (h, mi, s, us) => validParts ⟨y, mo, d, h, mi, s, us⟩
        | none => none
    else none
  | _ => none

/-- Embedding of the source's `parse_dt(s)`: strip, try the fixed formats,
fall back to `fromisoformat` on the string with every `Z` removed; `none`
stands for the raised `ValueError`. -/
def parse_dt (s : String) : Option PyDateTime :=
  let t := (pyStrip s).data
  match tryFormats DT_FORMATS t with
  | some dt => some dt
  | none => fromIso (t.filter fun c => !(c == 'Z'))

/-- Days before January 1st of `year` since the proleptic Gregorian
date 0001-01-01 (`datetime.toordinal` minus one). -/
def daysBeforeYear (year : Nat) : Nat :=
  let n := year - 1
  n * 365 + n / 4 - n / 100 + n / 400

/-- Days of `year` before the first of `month`. -/
def daysBeforeMonth (year month : Nat) : Nat :=
  (List.range (month - 1)).foldl (fun a k => a + daysInMonth year (k + 1)) 0

/-- The microsecond value of a naive `datetime`: its position on the
proleptic Gregorian timeline, which carries exactly `datetime`'s ordering,
equality and subtraction. -/
def dtToUs (dt : PyDateTime) : Int :=
  ((((((daysBeforeYear dt.year + daysBeforeMonth dt.year dt.month + (dt.day - 1)) * 24
      + dt.hour) * 60 + dt.minute) * 60 + dt.second) * 1000000 + dt.usec : Nat) : Int)

/-! ## Message loading (`read_chat`, scripts/chat_metrics.py)

The file and JSON/CSV decoding are out of scope; the embedding starts from
the decoded records.  A record is the string-valued fields the source reads
through `.get`, a missing key being `none`. -/

/-- One decoded input record (a JSON message object or a CSV row). -/
structure RawMsg where
  timestamp : Option String
  time : Option String
  created_at : Option String
  date : Option String
  role : Option String
  content : Option String
  text : Option String
deriving Repr, DecidableEq, Inhabited

/-- Python truthiness of `.get`'s result: a present, non-empty string. -/
def truthyS (v : Option String) : Bool :=
  match v with
  | some s => !(s == "")
  | none => false

/-- Python `a or b` on two `.get` results. -/
def orOpt (a b : Option String) : Option String :=
  if truthyS a then a else b

/-- Python `a or default` with a string default. -/
def orField (v : Option String) (default : String) : String :=
  match v with
  | some s => if s == "" then default else s
  | none => default

/-- The timestamp chain of the JSON loop:
`m.get("timestamp") or m.get("time") or m.get("created_at") or m.get("date")`. -/
def tsChainJson (m : RawMsg) : Option String :=
  orOpt m.timestamp (orOpt m.time (orOpt m.created_at m.date))

/-- The role of the JSON loop: `(m.get("role") or "").lower()`. -/
def roleJson (m : RawMsg) : String :=
  strToLower (orField m.role "")

/-- The content of the JSON loop: `m.get("content") or m.get("text") or ""`. -/
def contentJson (m : RawMsg) : String :=
  orField m.content (orField m.text "")

/-- One iteration of the JSON loop of `read_chat`: skip on missing/empty
timestamp or role or unparseable timestamp, else build the message. -/
def parseItemJson (m : RawMsg) : Option Msg :=
  if !truthyS (tsChainJson m) || roleJson m == "" then none
  else
    match parse_dt ((tsChainJson m).getD "") with
    | none => none
    | some dt => some ⟨dtToUs dt, roleJson m, contentJson m⟩

/-- The timestamp of the CSV loop (the chain with a final `or ""`, stripped). -/
def tsCsv (m : RawMsg) : String :=
  pyStrip (orField m.timestamp (orField m.time (orField m.created_at (orField m.date ""))))

/-- The role of the CSV loop: `(row.get("role") or "").strip().lower()`. -/
def roleCsv (m : RawMsg) : String :=
  strToLower (pyStrip (orField m.role ""))

/-- One iteration of the CSV loop of `read_chat`: as the JSON one, with
each field stripped. -/
def parseItemCsv (m : RawMsg) : Option Msg :=
  if tsCsv m == "" || roleCsv m == "" then none
  else
    match parse_dt (tsCsv m) with
    | none => none
    | some dt => some ⟨dtToUs dt, roleCsv m, pyStrip (orField m.content (orField m.text ""))⟩

/-- Stable insertion into a list sorted ascending by timestamp. -/
def insertMsg (x : Msg) : List Msg → List Msg
  | [] => [x]
  | y :: ys => if x.timestamp ≤ y.timestamp then x :: y :: ys else y :: insertMsg x ys

/-- Embedding of `msgs.sort(key=lambda m: m["timestamp"])`: Python's sort is
stable and ascending, and any stable ascending sort computes the same list,
here an insertion sort. -/
def sortMsgs : List Msg → List Msg
  | [] => []
  | x :: xs => insertMsg x (sortMsgs xs)

/-- Embedding of `read_chat` on a decoded JSON message list: collect, then
sort by timestamp. -/
def read_chat_json (items : List RawMsg) : List Msg :=
  sortMsgs (items.filterMap parseItemJson)

/-- Embedding of `read_chat` on decoded CSV rows: collect, then sort by
timestamp. -/
def read_chat_csv (rows : List RawMsg) : List Msg :=
  sortMsgs (rows.filterMap parseItemCsv)

/-! ## Complaint converter (data/cfpb_importer.py) -/

/-- One decoded CSV row of the complaint file: the string-valued columns the
source reads through `.get`, a missing column being `none`. -/
structure Row where
  CompanyU : Option String
  companyL : Option String
  narrativeU : Option String
  narrativeL : Option String
  StateU : Option String
  stateL : Option String
  ProductU : Option String
  productL : Option String
  dateReceivedU : Option String
  dateReceivedL : Option String
deriving Repr, DecidableEq, Inhabited

/-- One emitted fact record. -/
structure FactRec where
  plaintiff : String
  defendant : String
  incident : String
  amount_claimed : Option Rat
  venue : String
  category : String
  incident_date : String
deriving Repr, DecidableEq, Inhabited

/-- The trimmed narrative of a row:
`(row.get('Consumer complaint narrative') or row.get('consumer_complaint_narrative') or '').strip()`. -/
def narrativeOf (r : Row) : String :=
  pyStrip (orField r.narrativeU (orField r.narrativeL ""))

/-- The emitted defendant of a row:
`(row.get('Company') or row.get('company') or 'Unknown Company').strip()` —
the default applies before the strip. -/
def defendantOf (r : Row) : String :=
  pyStrip (orField r.CompanyU (orField r.companyL "Unknown Company"))

/-- The body of the conversion loop for one row: field extraction, the
narrative filter (`if not narrative or len(narrative) < 50: continue`), and
the fact literal. -/
def mkFact (r : Row) : Option FactRec :=
  let company := defendantOf r
  let narrative := narrativeOf r
  let state := pyStrip (orField r.StateU (orField r.stateL ""))
  let product := pyStrip (orField r.ProductU (orField r.productL ""))
  let date_received := pyStrip (orField r.dateReceivedU (orField r.dateReceivedL ""))
  if narrative == "" || narrative.length < 50 then none
  else
    some { plaintiff := "Consumer"
           defendant := company
           incident := narrative
           amount_claimed := none
           venue := state
           category := product
           incident_date := date_received }

/-- The enumerated reader loop: `for i, row in enumerate(reader): if i >=
limit: break; ...` — the break tests the row index `i`, not the number of
facts emitted so far. -/
def convertLoop (limit : Nat) : Nat → List Row → List FactRec
  | _, [] => []
  | i, r :: rest =>
    if limit ≤ i then []
    else
      match mkFact r with
      | some f => f :: convertLoop limit (i + 1) rest
      | none => convertLoop limit (i + 1) rest

/-- Embedding of `convert_complaints_to_facts(csv_path, limit)` after a
successful read: the loop over the decoded rows. -/
def convert_complaints_to_facts (rows : List Row) (limit : Nat) : List FactRec :=
  convertLoop limit 0 rows

/-- How the attempt to open and read the complaint CSV can end; the two
error constructors stand for the `FileNotFoundError` and generic
`Exception` handlers of the source. -/
inductive CsvSource where
  | ok (rows : List Row)
  | fileNotFound
  | readError (msg : String)
deriving Repr, DecidableEq

/-- The whole guarded body of `convert_complaints_to_facts`, returning the
fact list and the lines printed: each `except` branch reports and yields an
empty list instead of propagating. -/
def convert_complaints_run (csv_path : String) (src : CsvSource) (limit : Nat) :
    List FactRec × List String :=
  match src with
  | CsvSource.ok rows =>
    let facts := convert_complaints_to_facts rows limit
    (facts, ["Converted " ++ toString facts.length ++ " complaints to facts JSON"])
  | CsvSource.fileNotFound =>
    ([], ["Error: CSV file not found at " ++ csv_path,
          "\nTo get CFPB data:",
          "1. Visit https://www.consumerfinance.gov/data-research/consumer-complaints/",
          "2. Click 'Export data' and download CSV with complaint narratives",
          "3. Save as data/complaints.csv"])
  | CsvSource.readError e =>
    ([], ["Error reading CSV: " ++ e])

/-! ## Theorems: complaint converter (claims C4, C6, C9, C10) -/

/-- The conversion loop from row index `i` is the filtered prefix of the
remaining rows of length `limit - i`. -/
theorem convertLoop_eq_take_filterMap (limit : Nat) :
    ∀ (rows : List Row) (i : Nat), convertLoop limit i rows = (rows.take (limit - i)).filterMap mkFact := by
  intro rows
  induction rows with
  | nil => intro i; simp [convertLoop]
  | cons r rest ih =>
    intro i
    by_cases h : limit ≤ i
    · have hz : limit - i = 0 := Nat.sub_eq_zero_of_le h
      simp [convertLoop, h, hz]
    · have hlt : i < limit := Nat.lt_of_not_le h
      have hs : limit - i = (limit - (i + 1)) + 1 := by omega
      rw [hs]
      simp only [convertLoop, if_neg h, List.take_succ_cons, List.filterMap_cons]
      cases hf : mkFact r with
      | none => simp [ih (i + 1)]
      | some f => simp [ih (i + 1)]

/-- A filterMap whose function succeeds on every element keeps the length. -/
theorem length_filterMap_of_isSome {α β : Type} (f : α → Option β) :
    ∀ (l : List α), (∀ x ∈ l, (f x).isSome) → (l.filterMap f).length = l.length := by
  intro l
  induction l with
  | nil => intro _; rfl
  | cons x xs ih =>
    intro h
    have hx := h x (List.mem_cons_self x xs)
    cases hf : f x with
    | none => rw [hf] at hx; cases hx
    | some y =>
      simp only [List.filterMap_cons, hf, List.length_cons]
      rw [ih fun z hz => h z (List.mem_cons_of_mem x hz)]

/-- Claim C4, counterexample: the limit bounds the number of input rows read,
not the number of emitted records.  With a non-qualifying first row, two
qualifying rows and limit 2, the input holds 2 qualifying rows yet only 1
record is emitted. -/
theorem convert_limit_counts_rows_not_records :
    (([⟨none, none, none, none, none, none, none, none, none, none⟩,
       ⟨none, none, some (String.mk (List.replicate 50 'a')), none, none, none, none, none, none, none⟩,
       ⟨none, none, some (String.mk (List.replicate 50 'a')), none, none, none, none, none, none, none⟩] :
        List Row).filter (fun r => (mkFact r).isSome)).length = 2
    ∧ (convert_complaints_to_facts
        [⟨none, none, none, none, none, none, none, none, none, none⟩,
         ⟨none, none, some (String.mk (List.replicate 50 'a')), none, none, none, none, none, none, none⟩,
         ⟨none, none, some (String.mk (List.replicate 50 'a')), none, none, none, none, none, none, none⟩]
        2).length = 1
    ∧ (1 : Nat) ≠ 2 := by
  refine ⟨by decide, by decide, by decide⟩

/-- Claim C4, amended: the converter stops after reading `limit` input rows,
so it emits the qualifying rows among the first `limit`, in input order: at
most `limit` records, and exactly `limit` exactly when the first `limit`
rows read all qualify. -/
theorem convert_limit_take_filterMap :
    (∀ (rows : List Row) (limit : Nat),
        convert_complaints_to_facts rows limit = (rows.take limit).filterMap mkFact)
    ∧ (∀ (rows : List Row) (limit : Nat),
        (convert_complaints_to_facts rows limit).length ≤ limit)
    ∧ (∀ (rows : List Row) (limit : Nat),
        limit ≤ rows.length → (∀ r ∈ rows.take limit, (mkFact r).isSome) →
        (convert_complaints_to_facts rows limit).length = limit) := by
  have heq : ∀ (rows : List Row) (limit : Nat),
      convert_complaints_to_facts rows limit = (rows.take limit).filterMap mkFact := by
    intro rows limit
    have := convertLoop_eq_take_filterMap limit rows 0
    simpa [convert_complaints_to_facts] using this
  refine ⟨heq, ?_, ?_⟩
  · intro rows limit
    rw [heq]
    calc ((rows.take limit).filterMap mkFact).length
        ≤ (rows.take limit).length := List.length_filterMap_le mkFact _
      _ ≤ limit := by simp [List.length_take]
  · intro rows limit hlen hall
    rw [heq, length_filterMap_of_isSome mkFact _ hall]
    simp [List.length_take, Nat.min_eq_left hlen]

/-- Claim C6: a row is dropped exactly when its trimmed narrative is absent
or shorter than 50 characters; a trimmed narrative of exactly 49 characters
is dropped and one of exactly 50 characters is kept. -/
theorem narrative_filter_threshold :
    (∀ r : Row, mkFact r = none ↔ (narrativeOf r).length < 50)
    ∧ mkFact ⟨none, none, some (String.mk (List.replicate 49 'a')), none, none,
        none, none, none, none, none⟩ = none
    ∧ (mkFact ⟨none, none, some (String.mk (List.replicate 50 'a')), none, none,
        none, none, none, none, none⟩).isSome = true := by
  refine ⟨?_, by decide, by decide⟩
  intro r
  simp only [mkFact]
  by_cases h : narrativeOf r == "" || decide ((narrativeOf r).length < 50)
  · rw [if_pos h]
    simp only [Bool.or_eq_true, beq_iff_eq, decide_eq_true_eq] at h
    rcases h with h | h
    · simp [h]
    · simp [h]
  · rw [if_neg h]
    simp only [Bool.or_eq_true, beq_iff_eq, decide_eq_true_eq, not_or, not_lt] at h
    simp [Nat.not_lt.mpr h.2]

/-- Claim C9: a failed open or read of the complaint CSV is reported, not
propagated — each handler yields the empty fact list together with its
message lines, and a non-empty fact list can only come from a successful
read. -/
theorem convert_error_empty :
    (∀ (p : String) (limit : Nat),
        convert_complaints_run p CsvSource.fileNotFound limit
          = ([], ["Error: CSV file not found at " ++ p,
                  "\nTo get CFPB data:",
                  "1. Visit https://www.consumerfinance.gov/data-research/consumer-complaints/",
                  "2. Click 'Export data' and download CSV with complaint narratives",
                  "3. Save as data/complaints.csv"]))
    ∧ (∀ (p e : String) (limit : Nat),
        convert_complaints_run p (CsvSource.readError e) limit
          = ([], ["Error reading CSV: " ++ e]))
    ∧ (∀ (p : String) (limit : Nat) (src : CsvSource),
        (convert_complaints_run p src limit).1 ≠ [] → ∃ rows, src = CsvSource.ok rows) := by
  refine ⟨fun p limit => rfl, fun p e limit => rfl, ?_⟩
  intro p limit src h
  cases src with
  | ok rows => exact ⟨rows, rfl⟩
  | fileNotFound => exact absurd rfl h
  | readError e => exact absurd rfl h

/-- Claim C10: the "Unknown Company" default is applied before trimming — a
present, whitespace-only company field yields an empty defendant, the
default fires exactly when both company column variants are missing or hold
the empty string, and otherwise the defendant is the trimmed first truthy
variant. -/
theorem defendant_default_before_trim :
    (∀ (r : Row) (w : String), r.CompanyU = some w → w ≠ "" → pyStrip w = "" →
        defendantOf r = "")
    ∧ (∀ r : Row, truthyS r.CompanyU = false → truthyS r.companyL = false →
        defendantOf r = "Unknown Company")
    ∧ (∀ (r : Row) (w : String), r.CompanyU = some w → w ≠ "" → defendantOf r = pyStrip w)
    ∧ (∀ (r : Row) (w : String), truthyS r.CompanyU = false → r.companyL = some w → w ≠ "" →
        defendantOf r = pyStrip w)
    ∧ (∀ (r : Row) (f : FactRec), mkFact r = some f → f.defendant = defendantOf r)
    ∧ defendantOf ⟨some "   ", none, none, none, none, none, none, none, none, none⟩ = ""
    ∧ ("" : String) ≠ "Unknown Company" := by
  have hfirst : ∀ (r : Row) (w : String), r.CompanyU = some w → w ≠ "" →
      defendantOf r = pyStrip w := by
    intro r w hc hw
    simp [defendantOf, orField, hc, hw]
  refine ⟨?_, ?_, hfirst, ?_, ?_, by decide, by decide⟩
  · intro r w hc hw hstrip
    rw [hfirst r w hc hw, hstrip]
  · intro r hCu hcl
    cases hc : r.CompanyU with
    | none =>
      cases hc2 : r.companyL with
      | none => simp [defendantOf, orField, hc, hc2]; decide
      | some w =>
        rw [hc2] at hcl
        simp only [truthyS, Bool.not_eq_false', beq_iff_eq] at hcl
        simp [defendantOf, orField, hc, hc2, hcl]; decide
    | some w =>
      rw [hc] at hCu
      simp only [truthyS, Bool.not_eq_false', beq_iff_eq] at hCu
      cases hc2 : r.companyL with
      | none => simp [defendantOf, orField, hc, hc2, hCu]; decide
      | some w2 =>
        rw [hc2] at hcl
        simp only [truthyS, Bool.not_eq_false', beq_iff_eq] at hcl
        simp [defendantOf, orField, hc, hc2, hCu, hcl]; decide
  · intro r w hCu hcl hw
    cases hc : r.CompanyU with
    | none => simp [defendantOf, orField, hc, hcl, hw]
    | some w2 =>
      rw [hc] at hCu
      simp only [truthyS, Bool.not_eq_false', beq_iff_eq] at hCu
      simp [defendantOf, orField, hc, hCu, hcl, hw]
  · intro r f hf
    simp only [mkFact] at hf
    by_cases h : narrativeOf r == "" || decide ((narrativeOf r).length < 50)
    · rw [if_pos h] at hf; cases hf
    · rw [if_neg h] at hf
      cases hf
      rfl

/-! ## Theorems: turn grouping (claims C2, C3) -/

/-- Mapping the second components of a filtered enumeration gives the plain
filtered list. -/
theorem enumFrom_filter_map_snd {α : Type} (P : α → Bool) :
    ∀ (l : List α) (n : Nat),
      ((List.enumFrom n l).filter fun p => P p.2).map Prod.snd = l.filter P := by
  intro l
  induction l with
  | nil => intro n; rfl
  | cons x xs ih =>
    intro n
    simp only [List.enumFrom, List.filter_cons]
    by_cases h : P x
    · simp [h, ih (n + 1)]
    · simp [h, ih (n + 1)]

/-- Reading the messages back through the collected user indices gives the
user-filtered message list. -/
theorem userIndices_map_getD (msgs : List Msg) :
    (userIndices msgs).map (fun k => msgs.getD k default)
      = msgs.filter fun m => m.role == "user" := by
  unfold userIndices
  rw [List.map_map]
  have h1 : ∀ p ∈ (msgs.enum.filter fun p => p.2.role == "user"),
      ((fun k => msgs.getD k default) ∘ Prod.fst) p = Prod.snd p := by
    intro p hp
    have hpe : p ∈ msgs.enum := List.mem_of_mem_filter hp
    have hpg : msgs[p.1]? = some p.2 := List.mem_enum_iff_getElem?.1 hpe
    simp [Function.comp, List.getD_eq_getElem?_getD, hpg]
  rw [List.map_congr_left h1]
  rw [show msgs.enum = List.enumFrom 0 msgs from rfl]
  exact enumFrom_filter_map_snd (fun m => m.role == "user") msgs 0

/-- There are as many user indices as user messages. -/
theorem userIndices_length (msgs : List Msg) :
    (userIndices msgs).length = (msgs.filter fun m => m.role == "user").length := by
  conv_rhs => rw [← userIndices_map_getD msgs]
  simp

/-- The i-th user index points at the i-th user message. -/
theorem userIndices_getElem? (msgs : List Msg) (i ui : Nat)
    (h : (userIndices msgs)[i]? = some ui) :
    (msgs.filter fun m => m.role == "user")[i]? = some (msgs.getD ui default) := by
  rw [← userIndices_map_getD msgs, List.getElem?_map, h]
  rfl

/-- The turn list is as long as the user-index list. -/
theorem group_turns_length (msgs : List Msg) (cap : Int) :
    (group_turns msgs cap).length = (userIndices msgs).length := by
  simp [group_turns]

/-- The i-th turn, written out from the definition of `group_turns`. -/
theorem group_turns_getElem? (msgs : List Msg) (cap : Int) (i ui : Nat)
    (h : (userIndices msgs)[i]? = some ui) :
    (group_turns msgs cap)[i]? = some (
      let u := msgs.getD ui default
      let next_u : Int :=
        if i + 1 < (userIndices msgs).length then
          (msgs.getD ((userIndices msgs).getD (i + 1) 0) default).timestamp
        else u.timestamp + (cap + 5) * usPerMinute
      let ai := findResp (msgs.drop (ui + 1))
      let dur : Int := min (next_u - u.timestamp) (cap * usPerMinute)
      let a_text := match ai with | some a => a.content | none => ""
      { user_time := u.timestamp
        durUs := dur
        duration_minutes := pyRound ((dur : Rat) / 60000000) 2
        category := classify_turn u.content a_text
        user_chars := u.content.length
        assistant_chars := a_text.length
        tokens_est := token_estimate u.content + token_estimate a_text
        user_excerpt := u.content.take 140 ++ (if u.content.length > 140 then "…" else "") }) := by
  unfold group_turns
  rw [List.getElem?_map]
  rw [show (userIndices msgs).enum = List.enumFrom 0 (userIndices msgs) from rfl]
  rw [List.getElem?_enumFrom, h]
  simp

/-- The credited duration field of the i-th turn. -/
theorem group_turns_durUs (msgs : List Msg) (cap : Int) (i ui : Nat)
    (h : (userIndices msgs)[i]? = some ui) :
    ((group_turns msgs cap).getD i default).durUs
      = min ((if i + 1 < (userIndices msgs).length then
                (msgs.getD ((userIndices msgs).getD (i + 1) 0) default).timestamp
              else (msgs.getD ui default).timestamp + (cap + 5) * usPerMinute)
             - (msgs.getD ui default).timestamp) (cap * usPerMinute) := by
  rw [List.getD_eq_getElem?_getD, group_turns_getElem? msgs cap i ui h]
  rfl

/-- The token-estimate field of the i-th turn. -/
theorem group_turns_tokens (msgs : List Msg) (cap : Int) (i ui : Nat)
    (h : (userIndices msgs)[i]? = some ui) :
    ((group_turns msgs cap).getD i default).tokens_est
      = token_estimate (msgs.getD ui default).content
        + token_estimate (match findResp (msgs.drop (ui + 1)) with
                          | some a => a.content
                          | none => "") := by
  rw [List.getD_eq_getElem?_getD, group_turns_getElem? msgs cap i ui h]
  rfl

/-- The response text attached to the i-th turn, as the spec describes it:
the first assistant message after the i-th initiating message, stopping at
the next initiating message; empty when there is none. -/
def respTextAt (msgs : List Msg) (i : Nat) : String :=
  match findResp (msgs.drop ((userIndices msgs).getD i 0 + 1)) with
  | some a => a.content
  | none => ""

/-- Claim C2: every turn's credited duration is
`min(next initiating timestamp − current initiating timestamp, cap)`, where
the next initiating timestamp of the last turn is the current one plus
(cap + 5) minutes, so the last turn is credited exactly the cap; two
initiating messages 35 minutes apart under a 20-minute cap credit exactly
20 minutes to the first turn. -/
theorem group_turns_credited_duration :
    (∀ (msgs : List Msg) (cap : Int) (i : Nat), i < (group_turns msgs cap).length →
        ((group_turns msgs cap).getD i default).durUs = creditedDur (initTimes msgs) i cap)
    ∧ (∀ (msgs : List Msg) (cap : Int) (i : Nat), i + 1 = (group_turns msgs cap).length →
        ((group_turns msgs cap).getD i default).durUs = cap * usPerMinute)
    ∧ ((group_turns [⟨0, "user", "hi"⟩, ⟨35 * usPerMinute, "user", "yo"⟩] 20).getD 0 default).durUs
        = 20 * usPerMinute := by
  have main : ∀ (msgs : List Msg) (cap : Int) (i : Nat), i < (group_turns msgs cap).length →
      ((group_turns msgs cap).getD i default).durUs = creditedDur (initTimes msgs) i cap := by
    intro msgs cap i hi
    rw [group_turns_length] at hi
    obtain ⟨ui, hui⟩ : ∃ ui, (userIndices msgs)[i]? = some ui :=
      ⟨_, List.getElem?_eq_getElem hi⟩
    have hfi := userIndices_getElem? msgs i ui hui
    rw [group_turns_durUs msgs cap i ui hui]
    have htimes_i : (initTimes msgs).getD i 0 = (msgs.getD ui default).timestamp := by
      unfold initTimes
      rw [List.getD_eq_getElem?_getD, List.getElem?_map, hfi]
      rfl
    unfold creditedDur
    rw [htimes_i]
    congr 1
    congr 1
    unfold nextInitTime
    by_cases hc : i + 1 < (userIndices msgs).length
    · obtain ⟨ui2, hui2⟩ : ∃ ui2, (userIndices msgs)[i + 1]? = some ui2 :=
        ⟨_, List.getElem?_eq_getElem hc⟩
      have hfi2 := userIndices_getElem? msgs (i + 1) ui2 hui2
      have hgd : (userIndices msgs).getD (i + 1) 0 = ui2 := by
        rw [List.getD_eq_getElem?_getD, hui2]
        rfl
      rw [if_pos hc, hgd]
      unfold initTimes
      rw [List.getElem?_map, hfi2]
      rfl
    · have hnone : (initTimes msgs)[i + 1]? = none := by
        apply List.getElem?_eq_none
        unfold initTimes
        rw [List.length_map, ← userIndices_length]
        exact Nat.le_of_not_lt hc
      rw [if_neg hc, hnone, htimes_i]
  refine ⟨main, ?_, by decide⟩
  intro msgs cap i hi
  have hlt : i < (group_turns msgs cap).length := by omega
  rw [main msgs cap i hlt]
  unfold creditedDur nextInitTime
  have hnone : (initTimes msgs)[i + 1]? = none := by
    apply List.getElem?_eq_none
    unfold initTimes
    rw [List.length_map, ← userIndices_length, ← group_turns_length msgs cap]
    omega
  rw [hnone]
  have h5 : cap * usPerMinute ≤ (initTimes msgs).getD i 0 + (cap + 5) * usPerMinute
      - (initTimes msgs).getD i 0 := by
    have : (initTimes msgs).getD i 0 + (cap + 5) * usPerMinute - (initTimes msgs).getD i 0
        = cap * usPerMinute + 5 * usPerMinute := by ring
    rw [this]
    have : (0 : Int) ≤ 5 * usPerMinute := by decide
    omega
  exact min_eq_right h5

/-- Claim C3 (amended form), supporting lemma free statement is below; the
i-th turn's token estimate is the sum of the two sides' independent
estimates. -/
theorem tokens_est_per_side_sum :
    (∀ (msgs : List Msg) (cap : Int) (i : Nat), i < (group_turns msgs cap).length →
        ((group_turns msgs cap).getD i default).tokens_est
          = token_estimate ((msgs.filter fun m => m.role == "user").getD i default).content
            + token_estimate (respTextAt msgs i))
    ∧ token_estimate "a" + token_estimate "b" = 2 := by
  refine ⟨?_, by decide⟩
  intro msgs cap i hi
  rw [group_turns_length] at hi
  obtain ⟨ui, hui⟩ : ∃ ui, (userIndices msgs)[i]? = some ui :=
    ⟨_, List.getElem?_eq_getElem hi⟩
  have hfi := userIndices_getElem? msgs i ui hui
  rw [group_turns_tokens msgs cap i ui hui]
  have hufl : (msgs.filter fun m => m.role == "user").getD i default = msgs.getD ui default := by
    rw [List.getD_eq_getElem?_getD, hfi]
    rfl
  have hgd : (userIndices msgs).getD i 0 = ui := by
    rw [List.getD_eq_getElem?_getD, hui]
    rfl
  rw [hufl]
  unfold respTextAt
  rw [hgd]

/-- Claim C3, counterexample: a one-character user text and a one-character
assistant reply give a recorded estimate of 2, while the ceiling of the
total character count divided by 4 is 1. -/
theorem tokens_est_not_combined_ceiling :
    ((group_turns [⟨0, "user", "a"⟩, ⟨usPerMinute, "assistant", "b"⟩] 20).getD 0 default).tokens_est
        = 2
    ∧ (((group_turns [⟨0, "user", "a"⟩, ⟨usPerMinute, "assistant", "b"⟩] 20).getD 0
          default).user_chars
        + ((group_turns [⟨0, "user", "a"⟩, ⟨usPerMinute, "assistant", "b"⟩] 20).getD 0
            default).assistant_chars + 3) / 4 = 1
    ∧ (2 : Nat) ≠ 1 := by
  refine ⟨by decide, by decide, by decide⟩

/-! ## Theorems: aggregation (claim C8) -/

/-- The accumulation loop of `summarize`, solved: each field is the starting
value plus that category's sum. -/
theorem foldl_addTurn (turns : List Turn) : ∀ acc : TotalsAcc,
    turns.foldl addTurn acc =
      ⟨⟨acc.dbg.mins + catMins Category.DEBUG_LOG turns,
        acc.dbg.tokens + catTokens Category.DEBUG_LOG turns⟩,
       ⟨acc.feat.mins + catMins Category.FEATURE_DEV turns,
        acc.feat.tokens + catTokens Category.FEATURE_DEV turns⟩,
       ⟨acc.tdc.mins + catMins Category.TEST_DOCS_CI turns,
        acc.tdc.tokens + catTokens Category.TEST_DOCS_CI turns⟩,
       ⟨acc.other.mins + catMins Category.OTHER turns,
        acc.other.tokens + catTokens Category.OTHER turns⟩⟩ := by
  induction turns with
  | nil => intro acc; simp [catMins, catTokens]
  | cons t ts ih =>
    intro acc
    rw [List.foldl_cons, ih (addTurn acc t)]
    cases hc : t.category <;> simp [addTurn, hc, catMins, catTokens, add_assoc]

/-- The four per-category minute sums add up to the grand minute sum. -/
theorem catMins_total (turns : List Turn) :
    catMins Category.DEBUG_LOG turns + catMins Category.FEATURE_DEV turns
      + catMins Category.TEST_DOCS_CI turns + catMins Category.OTHER turns
      = grandMinsOf turns := by
  induction turns with
  | nil => simp [catMins, grandMinsOf]
  | cons t ts ih =>
    cases hc : t.category <;> simp [catMins, grandMinsOf, hc] <;> linarith [ih]

/-- The four per-category token sums add up to the grand token sum. -/
theorem catTokens_total (turns : List Turn) :
    catTokens Category.DEBUG_LOG turns + catTokens Category.FEATURE_DEV turns
      + catTokens Category.TEST_DOCS_CI turns + catTokens Category.OTHER turns
      = grandTokensOf turns := by
  induction turns with
  | nil => simp [catTokens, grandTokensOf]
  | cons t ts ih =>
    cases hc : t.category <;> simp [catTokens, grandTokensOf, hc] <;> omega

/-- The summary, written out in terms of the per-category and grand sums. -/
theorem summarize_eq (turns : List Turn) :
    summarize turns =
      { dbg := shareOf ⟨catMins Category.DEBUG_LOG turns, catTokens Category.DEBUG_LOG turns⟩
          (grandMinsOf turns) (grandTokensOf turns)
        feat := shareOf ⟨catMins Category.FEATURE_DEV turns, catTokens Category.FEATURE_DEV turns⟩
          (grandMinsOf turns) (grandTokensOf turns)
        tdc := shareOf ⟨catMins Category.TEST_DOCS_CI turns, catTokens Category.TEST_DOCS_CI turns⟩
          (grandMinsOf turns) (grandTokensOf turns)
        other := shareOf ⟨catMins Category.OTHER turns, catTokens Category.OTHER turns⟩
          (grandMinsOf turns) (grandTokensOf turns)
        grand_mins := pyRound (grandMinsOf turns) 2
        grand_tokens := grandTokensOf turns } := by
  unfold summarize totalsOf
  rw [foldl_addTurn turns totalsInit]
  simp only [totalsInit, zero_add]
  rw [catMins_total, catTokens_total]

/-- Rounding zero gives zero. -/
theorem pyRound_zero (n : Nat) : pyRound 0 n = 0 := by
  unfold pyRound roundHalfEven
  norm_num

/-- Claim C8: the aggregator is total — each share is the rounded
category-total over grand-total percentage when the grand total is nonzero,
and 0 when the grand total is zero (the division is guarded), and the empty
turn sequence gives all-zero shares and zero grand totals. -/
theorem summarize_shares_total :
    ((summarize []).dbg.mins_share = 0 ∧ (summarize []).feat.mins_share = 0
      ∧ (summarize []).tdc.mins_share = 0 ∧ (summarize []).other.mins_share = 0
      ∧ (summarize []).dbg.tokens_share = 0 ∧ (summarize []).feat.tokens_share = 0
      ∧ (summarize []).tdc.tokens_share = 0 ∧ (summarize []).other.tokens_share = 0
      ∧ (summarize []).grand_mins = 0 ∧ (summarize []).grand_tokens = 0)
    ∧ (∀ turns : List Turn, grandMinsOf turns = 0 →
        (summarize turns).dbg.mins_share = 0 ∧ (summarize turns).feat.mins_share = 0
          ∧ (summarize turns).tdc.mins_share = 0 ∧ (summarize turns).other.mins_share = 0)
    ∧ (∀ turns : List Turn, grandTokensOf turns = 0 →
        (summarize turns).dbg.tokens_share = 0 ∧ (summarize turns).feat.tokens_share = 0
          ∧ (summarize turns).tdc.tokens_share = 0 ∧ (summarize turns).other.tokens_share = 0)
    ∧ (∀ turns : List Turn, grandMinsOf turns ≠ 0 →
        (summarize turns).dbg.mins_share
            = pyRound (catMins Category.DEBUG_LOG turns / grandMinsOf turns * 100) 1
          ∧ (summarize turns).feat.mins_share
            = pyRound (catMins Category.FEATURE_DEV turns / grandMinsOf turns * 100) 1
          ∧ (summarize turns).tdc.mins_share
            = pyRound (catMins Category.TEST_DOCS_CI turns / grandMinsOf turns * 100) 1
          ∧ (summarize turns).other.mins_share
            = pyRound (catMins Category.OTHER turns / grandMinsOf turns * 100) 1)
    ∧ (∀ turns : List Turn, grandTokensOf turns ≠ 0 →
        (summarize turns).dbg.tokens_share
            = pyRound ((catTokens Category.DEBUG_LOG turns : Rat) / (grandTokensOf turns : Rat) * 100) 1
          ∧ (summarize turns).feat.tokens_share
            = pyRound ((catTokens Category.FEATURE_DEV turns : Rat) / (grandTokensOf turns : Rat) * 100) 1
          ∧ (summarize turns).tdc.tokens_share
            = pyRound ((catTokens Category.TEST_DOCS_CI turns : Rat) / (grandTokensOf turns : Rat) * 100) 1
          ∧ (summarize turns).other.tokens_share
            = pyRound ((catTokens Category.OTHER turns : Rat) / (grandTokensOf turns : Rat) * 100) 1)
    ∧ (∀ turns : List Turn, (summarize turns).grand_mins = pyRound (grandMinsOf turns) 2
        ∧ (summarize turns).grand_tokens = grandTokensOf turns) := by
  refine ⟨?_, ?_, ?_, ?_, ?_, ?_⟩
  · rw [summarize_eq]
    simp [shareOf, catMins, catTokens, grandMinsOf, grandTokensOf, pyRound_zero]
  · intro turns h
    rw [summarize_eq]
    simp [shareOf, h, pyRound_zero]
  · intro turns h
    rw [summarize_eq]
    simp [shareOf, h, pyRound_zero]
  · intro turns h
    rw [summarize_eq]
    simp [shareOf, h]
  · intro turns h
    rw [summarize_eq]
    simp [shareOf, h]
  · intro turns
    rw [summarize_eq]
    exact ⟨rfl, rfl⟩

/-! ## Theorems: message loading (claims C5, C7) -/

/-- Membership in an insertion. -/
theorem mem_insertMsg (a x : Msg) : ∀ l : List Msg, a ∈ insertMsg x l ↔ a = x ∨ a ∈ l := by
  intro l
  induction l with
  | nil => simp [insertMsg]
  | cons y ys ih =>
    unfold insertMsg
    by_cases hc : x.timestamp ≤ y.timestamp
    · rw [if_pos hc]
      simp [List.mem_cons]
    · rw [if_neg hc]
      simp only [List.mem_cons, ih]
      tauto

/-- Membership in the sorted list. -/
theorem mem_sortMsgs (a : Msg) : ∀ l : List Msg, a ∈ sortMsgs l ↔ a ∈ l := by
  intro l
  induction l with
  | nil => simp [sortMsgs]
  | cons y ys ih =>
    unfold sortMsgs
    rw [mem_insertMsg, ih, List.mem_cons]

/-- Inserting into an ascending list keeps it ascending. -/
theorem pairwise_insertMsg (x : Msg) : ∀ l : List Msg,
    l.Pairwise (fun a b => a.timestamp ≤ b.timestamp) →
    (insertMsg x l).Pairwise (fun a b => a.timestamp ≤ b.timestamp) := by
  intro l
  induction l with
  | nil => intro _; simp [insertMsg]
  | cons y ys ih =>
    intro hp
    rw [List.pairwise_cons] at hp
    obtain ⟨hy, hys⟩ := hp
    unfold insertMsg
    by_cases hc : x.timestamp ≤ y.timestamp
    · rw [if_pos hc, List.pairwise_cons]
      refine ⟨?_, List.Pairwise.cons hy hys⟩
      intro b hb
      rcases List.mem_cons.1 hb with rfl | hb2
      · exact hc
      · exact le_trans hc (hy b hb2)
    · rw [if_neg hc, List.pairwise_cons]
      refine ⟨?_, ih hys⟩
      intro b hb
      rcases (mem_insertMsg b x ys).1 hb with rfl | hb2
      · exact le_of_lt (lt_of_not_le hc)
      · exact hy b hb2

/-- The sort produces an ascending list. -/
theorem pairwise_sortMsgs : ∀ l : List Msg,
    (sortMsgs l).Pairwise fun a b => a.timestamp ≤ b.timestamp := by
  intro l
  induction l with
  | nil => simp [sortMsgs]
  | cons y ys ih => exact pairwise_insertMsg y (sortMsgs ys) ih

/-- Filtering one timestamp through an insertion: the inserted message goes
first among its equals, everything else is unchanged. -/
theorem filter_insertMsg (x : Msg) (t : Int) : ∀ l : List Msg,
    (insertMsg x l).filter (fun m => m.timestamp == t)
      = if x.timestamp == t then x :: l.filter (fun m => m.timestamp == t)
        else l.filter (fun m => m.timestamp == t) := by
  intro l
  induction l with
  | nil =>
    by_cases hx : x.timestamp == t
    · simp [insertMsg, List.filter, hx]
    · simp [insertMsg, List.filter, hx]
  | cons y ys ih =>
    unfold insertMsg
    by_cases hc : x.timestamp ≤ y.timestamp
    · rw [if_pos hc]
      by_cases hx : x.timestamp == t
      · simp [List.filter_cons, hx]
      · simp [List.filter_cons, hx]
    · rw [if_neg hc]
      have hyt : y.timestamp < x.timestamp := lt_of_not_le hc
      by_cases hx : x.timestamp == t
      · have hyn : (y.timestamp == t) = false := by
          have hne : y.timestamp ≠ t := by
            rw [beq_iff_eq] at hx
            omega
          simpa using hne
        simp [List.filter_cons, hyn, ih, hx]
      · simp [List.filter_cons, ih, hx]

/-- Sorting does not change the subsequence at any one timestamp: the sort
is stable. -/
theorem filter_sortMsgs (t : Int) : ∀ l : List Msg,
    (sortMsgs l).filter (fun m => m.timestamp == t) = l.filter (fun m => m.timestamp == t) := by
  intro l
  induction l with
  | nil => rfl
  | cons y ys ih =>
    unfold sortMsgs
    rw [filter_insertMsg y t (sortMsgs ys), ih]
    by_cases hy : y.timestamp == t
    · simp [List.filter_cons, hy]
    · simp [List.filter_cons, hy]

/-- Inversion of a successful JSON item parse. -/
theorem parseItemJson_some (it : RawMsg) (m : Msg) (h : parseItemJson it = some m) :
    m.role = roleJson it ∧ m.role ≠ "" ∧ m.content = contentJson it := by
  unfold parseItemJson at h
  by_cases hg : (!truthyS (tsChainJson it) || roleJson it == "")
  · rw [if_pos hg] at h
    cases h
  · rw [if_neg hg] at h
    simp only [Bool.or_eq_true, Bool.not_eq_true', beq_iff_eq, not_or] at hg
    obtain ⟨hts, hrole⟩ := hg
    cases hp : parse_dt ((tsChainJson it).getD "") with
    | none => rw [hp] at h; cases h
    | some dt =>
      rw [hp] at h
      cases h
      exact ⟨rfl, hrole, rfl⟩

/-- Inversion of a successful CSV row parse. -/
theorem parseItemCsv_some (it : RawMsg) (m : Msg) (h : parseItemCsv it = some m) :
    m.role = roleCsv it ∧ m.role ≠ "" := by
  unfold parseItemCsv at h
  by_cases hg : (tsCsv it == "" || roleCsv it == "")
  · rw [if_pos hg] at h
    cases h
  · rw [if_neg hg] at h
    simp only [Bool.or_eq_true, beq_iff_eq, not_or] at hg
    obtain ⟨hts, hrole⟩ := hg
    cases hp : parse_dt (tsCsv it) with
    | none => rw [hp] at h; cases h
    | some dt =>
      rw [hp] at h
      cases h
      exact ⟨rfl, hrole⟩

/-- Claim C5, counterexample: a record with role "System" and a valid
timestamp is kept by the loader, with role "system" — which is neither
"user" nor "assistant". -/
theorem read_chat_keeps_system_role :
    (read_chat_json
        [⟨some "2025-11-10 16:23:00", none, none, none, some "System", some "hi", none⟩]).map
        Msg.role = ["system"]
    ∧ ("system" : String) ≠ "user"
    ∧ ("system" : String) ≠ "assistant" := by
  refine ⟨by decide, by decide, by decide⟩

/-- Claim C5, amended: every message the loader produces has a non-empty,
lowercased role (not necessarily "user" or "assistant"), and a record with a
missing/empty timestamp chain, an empty role, or an unparseable timestamp is
silently discarded. -/
theorem read_chat_role_nonempty_discard :
    (∀ (items : List RawMsg) (m : Msg), m ∈ read_chat_json items → m.role ≠ "")
    ∧ (∀ (rows : List RawMsg) (m : Msg), m ∈ read_chat_csv rows → m.role ≠ "")
    ∧ (∀ (it : RawMsg) (m : Msg), parseItemJson it = some m → m.role = roleJson it)
    ∧ (∀ (it : RawMsg) (m : Msg), parseItemCsv it = some m → m.role = roleCsv it)
    ∧ (∀ it : RawMsg, truthyS (tsChainJson it) = false → parseItemJson it = none)
    ∧ (∀ it : RawMsg, roleJson it = "" → parseItemJson it = none)
    ∧ (∀ it : RawMsg, parse_dt ((tsChainJson it).getD "") = none → parseItemJson it = none) := by
  refine ⟨?_, ?_, ?_, ?_, ?_, ?_, ?_⟩
  · intro items m hm
    rw [read_chat_json, mem_sortMsgs] at hm
    obtain ⟨it, _, hit⟩ := List.mem_filterMap.1 hm
    exact (parseItemJson_some it m hit).2.1
  · intro rows m hm
    rw [read_chat_csv, mem_sortMsgs] at hm
    obtain ⟨it, _, hit⟩ := List.mem_filterMap.1 hm
    exact (parseItemCsv_some it m hit).2
  · intro it m h
    exact (parseItemJson_some it m h).1
  · intro it m h
    exact (parseItemCsv_some it m h).1
  · intro it h
    unfold parseItemJson
    rw [if_pos]
    rw [h]
    rfl
  · intro it h
    unfold parseItemJson
    rw [if_pos]
    simp [h]
  · intro it h
    unfold parseItemJson
    by_cases hg : (!truthyS (tsChainJson it) || roleJson it == "")
    · rw [if_pos hg]
    · rw [if_neg hg, h]

/-- Claim C7: the loader's output is sorted ascending by timestamp, and at
every timestamp the subsequence of messages is exactly the one collected
from the source, in collection order (the sort is stable). -/
theorem read_chat_sorted_stable :
    (∀ items : List RawMsg,
        (read_chat_json items).Pairwise fun a b => a.timestamp ≤ b.timestamp)
    ∧ (∀ (items : List RawMsg) (t : Int),
        (read_chat_json items).filter (fun m => m.timestamp == t)
          = (items.filterMap parseItemJson).filter (fun m => m.timestamp == t))
    ∧ (∀ rows : List RawMsg,
        (read_chat_csv rows).Pairwise fun a b => a.timestamp ≤ b.timestamp)
    ∧ (∀ (rows : List RawMsg) (t : Int),
        (read_chat_csv rows).filter (fun m => m.timestamp == t)
          = (rows.filterMap parseItemCsv).filter (fun m => m.timestamp == t)) := by
  refine ⟨?_, ?_, ?_, ?_⟩
  · intro items
    exact pairwise_sortMsgs (items.filterMap parseItemJson)
  · intro items t
    exact filter_sortMsgs t (items.filterMap parseItemJson)
  · intro rows
    exact pairwise_sortMsgs (rows.filterMap parseItemCsv)
  · intro rows t
    exact filter_sortMsgs t (rows.filterMap parseItemCsv)

/-! ## Theorems: turn classification (claim C1) -/

/-- A search succeeding with a subset of the alternatives succeeds with all
of them. -/
theorem searchFrom_mono {alts1 alts2 : List (List Atom)}
    (hsub : ∀ x ∈ alts1, x ∈ alts2) :
    ∀ (s : List Char) (prev : Option Char),
      searchFrom alts1 prev s = true → searchFrom alts2 prev s = true := by
  intro s
  induction s with
  | nil =>
    intro prev h
    unfold searchFrom at h ⊢
    rw [List.any_eq_true] at h ⊢
    obtain ⟨a, ha, hm⟩ := h
    exact ⟨a, hsub a ha, hm⟩
  | cons d rest ih =>
    intro prev h
    unfold searchFrom at h ⊢
    rw [Bool.or_eq_true] at h ⊢
    rcases h with h | h
    · left
      rw [List.any_eq_true] at h ⊢
      obtain ⟨a, ha, hm⟩ := h
      exact ⟨a, hsub a ha, hm⟩
    · right
      exact ih (some d) h

/-- A pattern of the table that matches makes `any_match` true. -/
theorem any_match_of_pattern {pat : List (List Atom)} {pats : List (List (List Atom))}
    (hmem : pat ∈ pats) {blob : List Char} (h : reSearch pat blob = true) :
    any_match blob pats = true := by
  unfold any_match
  rw [List.any_eq_true]
  exact ⟨pat, hmem, h⟩

/-- The single word-alternative `\btraceback\b` of the first debug pattern. -/
def tracebackPat : List (List Atom) := [wordAlt "traceback"]

/-- Whether any of the five explicit mode markers matches. -/
def modeMarkerHit (blob : List Char) : Bool :=
  reSearch modeTestPat blob || reSearch modeDocsPat blob || reSearch modeAskPat blob
    || reSearch modePlanPat blob || reSearch modeBuildPat blob

/-- Claim C1, counterexample: a pair containing a build-mode marker does not
always classify FEATURE_DEV — a test marker checked earlier wins. -/
theorem classify_build_marker_not_dominant :
    reSearch modeBuildPat (blobOf "MODE: TEST MODE: BUILD" "") = true
    ∧ classify_turn "MODE: TEST MODE: BUILD" "" = Category.TEST_DOCS_CI
    ∧ Category.TEST_DOCS_CI ≠ Category.FEATURE_DEV := by
  refine ⟨by decide, by decide, by decide⟩

/-- Claim C1, amended: the classifier is total over the four labels with
first-match-wins precedence — the five mode markers first, in the order
test, docs, ask, plan, build (the earliest present marker wins), then the
debug table, then the test/docs/CI table, then the feature table, else
OTHER.  Text containing "traceback" and no mode marker is DEBUG_LOG whatever
else it contains; a build marker with no earlier marker gives FEATURE_DEV
whatever keywords are present. -/
theorem classify_turn_precedence :
    (∀ u a : String, classify_turn u a = Category.DEBUG_LOG
        ∨ classify_turn u a = Category.FEATURE_DEV
        ∨ classify_turn u a = Category.TEST_DOCS_CI
        ∨ classify_turn u a = Category.OTHER)
    ∧ (∀ u a : String, modeMarkerHit (blobOf u a) = false →
        reSearch tracebackPat (blobOf u a) = true → classify_turn u a = Category.DEBUG_LOG)
    ∧ (∀ u a : String, modeMarkerHit (blobOf u a) = false →
        any_match (blobOf u a) DEBUG_PATTERNS = true → classify_turn u a = Category.DEBUG_LOG)
    ∧ (∀ u a : String, modeMarkerHit (blobOf u a) = false →
        any_match (blobOf u a) DEBUG_PATTERNS = false →
        any_match (blobOf u a) TEST_DOCS_CI_PATTERNS = true →
        classify_turn u a = Category.TEST_DOCS_CI)
    ∧ (∀ u a : String, modeMarkerHit (blobOf u a) = false →
        any_match (blobOf u a) DEBUG_PATTERNS = false →
        any_match (blobOf u a) TEST_DOCS_CI_PATTERNS = false →
        any_match (blobOf u a) FEATURE_PATTERNS = true →
        classify_turn u a = Category.FEATURE_DEV)
    ∧ (∀ u a : String, modeMarkerHit (blobOf u a) = false →
        any_match (blobOf u a) DEBUG_PATTERNS = false →
        any_match (blobOf u a) TEST_DOCS_CI_PATTERNS = false →
        any_match (blobOf u a) FEATURE_PATTERNS = false →
        classify_turn u a = Category.OTHER)
    ∧ (∀ u a : String, reSearch modeTestPat (blobOf u a) = true →
        classify_turn u a = Category.TEST_DOCS_CI)
    ∧ (∀ u a : String, reSearch modeTestPat (blobOf u a) = false →
        reSearch modeDocsPat (blobOf u a) = true → classify_turn u a = Category.TEST_DOCS_CI)
    ∧ (∀ u a : String, reSearch modeTestPat (blobOf u a) = false →
        reSearch modeDocsPat (blobOf u a) = false → reSearch modeAskPat (blobOf u a) = true →
        classify_turn u a = Category.OTHER)
    ∧ (∀ u a : String, reSearch modeTestPat (blobOf u a) = false →
        reSearch modeDocsPat (blobOf u a) = false → reSearch modeAskPat (blobOf u a) = false →
        reSearch modePlanPat (blobOf u a) = true → classify_turn u a = Category.OTHER)
    ∧ (∀ u a : String, reSearch modeTestPat (blobOf u a) = false →
        reSearch modeDocsPat (blobOf u a) = false → reSearch modeAskPat (blobOf u a) = false →
        reSearch modePlanPat (blobOf u a) = false → reSearch modeBuildPat (blobOf u a) = true →
        classify_turn u a = Category.FEATURE_DEV)
    ∧ classify_turn "implement this traceback" "" = Category.DEBUG_LOG
    ∧ classify_turn "MODE: BUILD fix the error" "" = Category.FEATURE_DEV := by
  have hmode : ∀ u a : String, modeMarkerHit (blobOf u a) = false →
      reSearch modeTestPat (blobOf u a) = false ∧ reSearch modeDocsPat (blobOf u a) = false
        ∧ reSearch modeAskPat (blobOf u a) = false ∧ reSearch modePlanPat (blobOf u a) = false
        ∧ reSearch modeBuildPat (blobOf u a) = false := by
    intro u a h
    have h2 := h
    simp only [modeMarkerHit, Bool.or_eq_false_iff] at h2
    exact ⟨h2.1.1.1.1, h2.1.1.1.2, h2.1.1.2, h2.1.2, h2.2⟩
  refine ⟨?_, ?_, ?_, ?_, ?_, ?_, ?_, ?_, ?_, ?_, ?_, by decide, by decide⟩
  · intro u a
    unfold classify_turn
    repeat' split
    all_goals simp
  · intro u a hm ht
    obtain ⟨h1, h2, h3, h4, h5⟩ := hmode u a hm
    have hsub : ∀ x ∈ tracebackPat, x ∈ debugPat1 := by decide
    have hd1 : reSearch debugPat1 (blobOf u a) = true :=
      searchFrom_mono hsub (blobOf u a) none ht
    have hdbg : any_match (blobOf u a) DEBUG_PATTERNS = true :=
      any_match_of_pattern (by simp [DEBUG_PATTERNS]) hd1
    simp [classify_turn, h1, h2, h3, h4, h5, hdbg]
  · intro u a hm hdbg
    obtain ⟨h1, h2, h3, h4, h5⟩ := hmode u a hm
    simp [classify_turn, h1, h2, h3, h4, h5, hdbg]
  · intro u a hm hdbg htd
    obtain ⟨h1, h2, h3, h4, h5⟩ := hmode u a hm
    simp [classify_turn, h1, h2, h3, h4, h5, hdbg, htd]
  · intro u a hm hdbg htd hfe
    obtain ⟨h1, h2, h3, h4, h5⟩ := hmode u a hm
    simp [classify_turn, h1, h2, h3, h4, h5, hdbg, htd, hfe]
  · intro u a hm hdbg htd hfe
    obtain ⟨h1, h2, h3, h4, h5⟩ := hmode u a hm
    simp [classify_turn, h1, h2, h3, h4, h5, hdbg, htd, hfe]
  · intro u a h1
    simp [classify_turn, h1]
  · intro u a h1 h2
    simp [classify_turn, h1, h2]
  · intro u a h1 h2 h3
    simp [classify_turn, h1, h2, h3]
  · intro u a h1 h2 h3 h4
    simp [classify_turn, h1, h2, h3, h4]
  · intro u a h1 h2 h3 h4 h5
    simp [classify_turn, h1, h2, h3, h4, h5]
